import Mathlib

/-!
Shallow embedding of `src/decHexBinConverter.c`: a program that reads a
hexadecimal string, parses it into a 32-bit value, decodes four sensor
fields (temperature, pressure, humidity bits, fluid level) and raises
alarms on out-of-range values.

Machine integers are modelled as `Nat` (and `Int` for the signed
temperature), with explicit reductions `% 2^8`, `% 2^16`, `% 2^32` at the
points where the C types force them.  The input stream (stdin) is a
`List Char`; a C string is modelled by a character buffer (`List Char` of
fixed length) containing a NUL terminator.
-/

namespace DecHexBin

/-- Constants from the `#define` block of the source. -/
def TEMPERATURE_BITS_MASK : Nat := 0xff

def PRESSURE_BITS_SHIFT : Nat := 8

def PRESSURE_BITS_MASK : Nat := 0x7f

def HUMIDITY_BITS_SHIFT : Nat := 15

def HUMIDITY_BITS_MASK : Nat := 0xf

def FLUID_LEVEL_BITS_SHIFT : Nat := 19

def MAX_HEX_DIGITS : Nat := 8

def HEX_INPUT_BUFFER_SIZE : Nat := 9

def HUMIDITY_BITS : Nat := 4

/-- The int16_t cast: wrap an integer into the range `[-2^15, 2^15)`. -/
def toInt16 (x : Int) : Int := (x + 2 ^ 15) % 2 ^ 16 - 2 ^ 15

/-- `getTemperature(uint32_t tempData, uint8_t maskForTemp)`:
`tempData = tempData & maskForTemp; return ((short int)tempData) - 20;`
The subtraction happens in `int` and the result is converted to
`int16_t` on return. -/
def getTemperature (tempData : Nat) (maskForTemp : Nat) : Int :=
  let t := Nat.land (tempData % 2 ^ 32) (maskForTemp % 2 ^ 8)
  toInt16 ((t : Int) - 20)

/-- `getPressure(uint32_t tempData, uint8_t maskForPressure, uint8_t
shiftForPressure)`: shift right, mask, add 1010, return as `uint16_t`. -/
def getPressure (tempData maskForPressure shiftForPressure : Nat) : Nat :=
  let t := (tempData % 2 ^ 32) >>> (shiftForPressure % 2 ^ 8)
  let t := Nat.land t (maskForPressure % 2 ^ 8)
  (t + 1010) % 2 ^ 16

/-- `getHumidity(uint32_t tempData, uint8_t maskForHumidity, uint8_t
shiftForHumidity)`: shift right, mask, return as `uint8_t`. -/
def getHumidity (tempData maskForHumidity shiftForHumidity : Nat) : Nat :=
  let t := (tempData % 2 ^ 32) >>> (shiftForHumidity % 2 ^ 8)
  Nat.land t (maskForHumidity % 2 ^ 8) % 2 ^ 8

/-- `getFluidLevel(uint32_t tempData, uint8_t shiftForFluidLevel)`:
shift right, return as `uint16_t`. -/
def getFluidLevel (tempData shiftForFluidLevel : Nat) : Nat :=
  ((tempData % 2 ^ 32) >>> (shiftForFluidLevel % 2 ^ 8)) % 2 ^ 16

/-- The decoded reading, i.e. the four locals of `main` after the four
`get*` calls with the constants `main` passes. -/
structure DecodedReading where
  temperature : Int
  pressure : Nat
  humidity : Nat
  fluidLevel : Nat
deriving Repr, DecidableEq

/-- The decode step of `main`: the four extraction calls with the
constants of the `#define` block. -/
def decode (raw : Nat) : DecodedReading where
  temperature := getTemperature raw TEMPERATURE_BITS_MASK
  pressure := getPressure raw PRESSURE_BITS_MASK PRESSURE_BITS_SHIFT
  humidity := getHumidity raw HUMIDITY_BITS_MASK HUMIDITY_BITS_SHIFT
  fluidLevel := getFluidLevel raw FLUID_LEVEL_BITS_SHIFT

/-- The `counter` local of `countHumidityBits` after its `for` loop:
for each `i < checkedBits`, `temp = (bitsToBeCounted >> i) & 0x1;
if (temp) counter++;`. -/
def countHumidityBitsCounter (bitsToBeCounted checkedBits : Nat) : Nat :=
  (List.range (checkedBits % 2 ^ 8)).foldl
    (fun c i =>
      if Nat.land ((bitsToBeCounted % 2 ^ 8) >>> i) 0x1 ≠ 0 then c + 1 else c) 0

/-- `countHumidityBits(uint8_t bitsToBeCounted, uint8_t checkedBits)`:
counts the set bits among the low `checkedBits` bits and returns the C
truth value of `counter > 2` (1 or 0). -/
def countHumidityBits (bitsToBeCounted checkedBits : Nat) : Nat :=
  if countHumidityBitsCounter bitsToBeCounted checkedBits > 2 then 1 else 0

/-- One alarm message the `alarm` function can print, in source order. -/
inductive AlarmKind where
  | tempLow
  | tempHigh
  | pressureLow
  | pressureHigh
  | humidityOutOfRange
  | tankEmpty
  | tankOverflow
deriving Repr, DecidableEq

/-- `alarm(int16_t temperatureData, uint16_t pressureData, uint8_t
humidityData, uint16_t fluidLevelData)`: the sequence of alarm messages
printed, in program order.  Each field is checked by its own
`if`/`else if` chain. -/
def alarm (temperatureData : Int) (pressureData humidityData fluidLevelData : Nat) :
    List AlarmKind :=
  (if temperatureData ≤ 4 then [AlarmKind.tempLow]
   else if temperatureData > 100 then [AlarmKind.tempHigh] else [])
  ++ (if pressureData < 1013 then [AlarmKind.pressureLow]
      else if pressureData > 1135 then [AlarmKind.pressureHigh] else [])
  ++ (if countHumidityBits humidityData HUMIDITY_BITS ≠ 0 then
        [AlarmKind.humidityOutOfRange]
      else [])
  ++ (if fluidLevelData ≤ 0 then [AlarmKind.tankEmpty]
      else if fluidLevelData > 8000 then [AlarmKind.tankOverflow] else [])

/-- The NUL character `'\0'`. -/
def nulChar : Char := Char.ofNat 0

/-- `flushBuffer(void)`: `while (getchar() != '\n');` — consume the
stream up to and including the next newline.  (On a stream with no
newline the C loop would spin on EOF; the model returns the empty
stream there.) -/
def flushBuffer : List Char → List Char
  | [] => []
  | c :: rest => if c = '\n' then rest else flushBuffer rest

/-- The `for` loop of `getBuffer`, at iteration `i` with buffer `input`:
stop and NUL-terminate at a newline; at index `table_size - 1` with no
newline yet, NUL-terminate there and flush the rest of the line (the
loop then exits since `i + 1 = table_size`); otherwise store the
character and continue.  Returns the final buffer and the unread
stream. -/
def getBufferLoop (stream : List Char) (i : Nat) (input : List Char)
    (table_size : Nat) : List Char × List Char :=
  if i < table_size then
    match stream with
    | [] => (input, [])
    | c :: rest =>
      if c = '\n' then (input.set i nulChar, rest)
      else if table_size - 1 ≤ i then
        (input.set (table_size - 1) nulChar, flushBuffer rest)
      else getBufferLoop rest (i + 1) (input.set i c) table_size
  else (input, stream)

/-- `getBuffer(char* input, uint8_t table_size)`: read one line from the
stream into the buffer `input`. -/
def getBuffer (input : List Char) (table_size : Nat) (stream : List Char) :
    List Char × List Char :=
  getBufferLoop stream 0 input table_size

/-- The C-string content of a buffer: the characters before the first
NUL terminator. -/
def bufContent (buf : List Char) : List Char :=
  buf.takeWhile (· ≠ nulChar)

/-- ASCII `toupper`: map `'a'..'z'` to `'A'..'Z'`, leave the rest. -/
def cToUpper (c : Char) : Char :=
  if 'a' ≤ c ∧ c ≤ 'z' then Char.ofNat (c.toNat - 32) else c

/-- ASCII `isdigit`. -/
def cIsDigit (c : Char) : Bool := '0' ≤ c ∧ c ≤ '9'

/-- `dataToUpperCase(char* dataToBeTranformed, uint8_t max_size)`:
`toupper` each character while `i < max_size` and the character is not
NUL.  On the string content this uppercases the first `max_size`
characters. -/
def dataToUpperCase (s : List Char) (max_size : Nat) : List Char :=
  (s.take max_size).map cToUpper ++ s.drop max_size

/-- `checkIfEnd(char* checkIfDataIsEnd)`: `strcmp` with `"END"` — true
exactly on string equality. -/
def checkIfEnd (s : List Char) : Bool :=
  s = [ 'E', 'N', 'D']

/-- `checkEnteredData(char* dataToBeChecked, uint8_t max_size)`: every
character, while `i < max_size` and not NUL, must satisfy
`isdigit(c) || ('A' <= c && c <= 'F')`. -/
def checkEnteredData (s : List Char) (max_size : Nat) : Bool :=
  (s.take max_size).all fun c => cIsDigit c || ( 'A' ≤ c ∧ c ≤ 'F')

/-- What one pass of the `do … while` body of `enterData` decides. -/
inductive Outcome where
  | exitProgram
  | accepted (data : List Char)
  | retryEmpty
  | retryInvalid
deriving Repr, DecidableEq

/-- One pass of the body of `enterData`, on the string content level:
read a line via `getBuffer` into the 9-byte buffer, uppercase it if
nonempty, then branch: empty data → retry; `"END"` → exit; invalid
characters → retry; otherwise accept.  Returns the outcome and the
unread stream. -/
def enterDataStep (buf : List Char) (stream : List Char) : Outcome × List Char :=
  let r := getBuffer buf HEX_INPUT_BUFFER_SIZE stream
  let content := bufContent r.1
  let content := if content ≠ [] then dataToUpperCase content MAX_HEX_DIGITS
                 else content
  if content = [] then (Outcome.retryEmpty, r.2)
  else if checkIfEnd content then (Outcome.exitProgram, r.2)
  else if ¬ checkEnteredData content MAX_HEX_DIGITS then (Outcome.retryInvalid, r.2)
  else (Outcome.accepted content, r.2)

/-- Modelled from the spec's evaluator contract, for comparison with
`alarm`: the union of the per-field alarm conditions, in the stable
field order temperature, pressure, humidity, fluidLevel.  The humidity
condition is the spec's set-bit count over the low 4 bits. -/
def specAlarms (t : Int) (p h f : Nat) : List AlarmKind :=
  (if t ≤ 4 then [AlarmKind.tempLow] else [])
  ++ (if 100 < t then [AlarmKind.tempHigh] else [])
  ++ (if p < 1013 then [AlarmKind.pressureLow] else [])
  ++ (if 1135 < p then [AlarmKind.pressureHigh] else [])
  ++ (if 2 < ((List.range 4).filter fun i => h.testBit i).length then
        [AlarmKind.humidityOutOfRange]
      else [])
  ++ (if f ≤ 0 then [AlarmKind.tankEmpty] else [])
  ++ (if 8000 < f then [AlarmKind.tankOverflow] else [])

/-- Helper for reasoning about `getBufferLoop`: write the characters of
a list into the buffer at consecutive indices starting at `i`. -/
def storeFrom (buf : List Char) (i : Nat) : List Char → List Char
  | [] => buf
  | c :: cs => storeFrom (buf.set i c) (i + 1) cs

/-! ## Arithmetic helper lemmas -/

theorem land_mask_255 (x : Nat) : Nat.land x 255 = x % 256 := by
  simpa using Nat.and_pow_two_sub_one_eq_mod x 8

theorem land_mask_127 (x : Nat) : Nat.land x 127 = x % 128 := by
  simpa using Nat.and_pow_two_sub_one_eq_mod x 7

theorem land_mask_15 (x : Nat) : Nat.land x 15 = x % 16 := by
  simpa using Nat.and_pow_two_sub_one_eq_mod x 4

theorem land_mask_8191 (x : Nat) : Nat.land x 8191 = x % 8192 := by
  simpa using Nat.and_pow_two_sub_one_eq_mod x 13

theorem shiftRight_8 (x : Nat) : x >>> 8 = x / 256 := by
  simpa using Nat.shiftRight_eq_div_pow x 8

theorem shiftRight_15 (x : Nat) : x >>> 15 = x / 32768 := by
  simpa using Nat.shiftRight_eq_div_pow x 15

theorem shiftRight_19 (x : Nat) : x >>> 19 = x / 524288 := by
  simpa using Nat.shiftRight_eq_div_pow x 19

/-! ## C1: the decode formulas -/

theorem getTemperature_eval (raw : Nat) (h : raw < 2 ^ 32) :
    getTemperature raw TEMPERATURE_BITS_MASK = (Nat.land raw 0xff : Int) - 20 := by
  have hm : raw % 2 ^ 32 = raw := Nat.mod_eq_of_lt h
  simp only [getTemperature, toInt16, TEMPERATURE_BITS_MASK, hm]
  norm_num [land_mask_255]
  omega

theorem getPressure_eval (raw : Nat) (h : raw < 2 ^ 32) :
    getPressure raw PRESSURE_BITS_MASK PRESSURE_BITS_SHIFT =
      Nat.land (raw >>> 8) 0x7f + 1010 := by
  have hm : raw % 2 ^ 32 = raw := Nat.mod_eq_of_lt h
  simp only [getPressure, PRESSURE_BITS_MASK, PRESSURE_BITS_SHIFT, hm]
  norm_num [land_mask_127]
  omega

theorem getHumidity_eval (raw : Nat) (h : raw < 2 ^ 32) :
    getHumidity raw HUMIDITY_BITS_MASK HUMIDITY_BITS_SHIFT =
      Nat.land (raw >>> 15) 0xf := by
  have hm : raw % 2 ^ 32 = raw := Nat.mod_eq_of_lt h
  simp only [getHumidity, HUMIDITY_BITS_MASK, HUMIDITY_BITS_SHIFT, hm]
  norm_num [land_mask_15]
  omega

theorem getFluidLevel_eval (raw : Nat) (h : raw < 2 ^ 32) :
    getFluidLevel raw FLUID_LEVEL_BITS_SHIFT = Nat.land (raw >>> 19) 0x1fff := by
  have hm : raw % 2 ^ 32 = raw := Nat.mod_eq_of_lt h
  simp only [getFluidLevel, FLUID_LEVEL_BITS_SHIFT, hm]
  norm_num [land_mask_8191, shiftRight_19]
  omega

/-- C1: for every 32-bit raw value, the decode step yields exactly
`temperature = (raw & 0xFF) - 20` (signed, hence in `-20..235`),
`pressure = ((raw >> 8) & 0x7F) + 1010`,
`humidity = (raw >> 15) & 0xF`, and `fluidLevel = (raw >> 19) & 0x1FFF`,
as computed by `getTemperature`, `getPressure`, `getHumidity` and
`getFluidLevel` with the constants passed in `main`. -/
theorem C1_decode_formulas (raw : Nat) (h : raw < 2 ^ 32) :
    decode raw =
      { temperature := (Nat.land raw 0xff : Int) - 20
        pressure := Nat.land (raw >>> 8) 0x7f + 1010
        humidity := Nat.land (raw >>> 15) 0xf
        fluidLevel := Nat.land (raw >>> 19) 0x1fff } ∧
    -20 ≤ (decode raw).temperature ∧ (decode raw).temperature ≤ 235 := by
  have h1 := getTemperature_eval raw h
  have h2 := getPressure_eval raw h
  have h3 := getHumidity_eval raw h
  have h4 := getFluidLevel_eval raw h
  have hmask : Nat.land raw 0xff = raw % 256 := land_mask_255 raw
  refine ⟨?_, ?_, ?_⟩
  · simp only [decode, DecodedReading.mk.injEq]
    exact ⟨h1, h2, h3, h4⟩
  · simp only [decode, h1, hmask]
    omega
  · simp only [decode, h1, hmask]
    omega

/-- C1 witness at `raw = 0x12345678`. -/
theorem C1_decode_formulas_witness :
    (0x12345678 : Nat) < 2 ^ 32 ∧
    (decode 0x12345678 =
      { temperature := (Nat.land 0x12345678 0xff : Int) - 20
        pressure := Nat.land ((0x12345678 : Nat) >>> 8) 0x7f + 1010
        humidity := Nat.land ((0x12345678 : Nat) >>> 15) 0xf
        fluidLevel := Nat.land ((0x12345678 : Nat) >>> 19) 0x1fff } ∧
     -20 ≤ (decode 0x12345678).temperature ∧
     (decode 0x12345678).temperature ≤ 235) :=
  ⟨by norm_num, C1_decode_formulas 0x12345678 (by norm_num)⟩

/-! ## C5: round-trip of packing and decoding -/

/-- C5: packing field values of the right widths at bit offsets 0, 8,
15, 19 and decoding recovers exactly those fields; the packed word is a
32-bit value; and conversely the four extracted fields reassemble every
32-bit word, so the fields are non-overlapping and cover bits 0–31. -/
theorem C5_roundtrip (t p h f : Nat) (ht : t < 2 ^ 8) (hp : p < 2 ^ 7)
    (hh : h < 2 ^ 4) (hf : f < 2 ^ 13) :
    decode (t + p * 2 ^ 8 + h * 2 ^ 15 + f * 2 ^ 19) =
      { temperature := (t : Int) - 20
        pressure := p + 1010
        humidity := h
        fluidLevel := f } ∧
    t + p * 2 ^ 8 + h * 2 ^ 15 + f * 2 ^ 19 < 2 ^ 32 ∧
    ∀ raw < 2 ^ 32,
      Nat.land raw 0xff + Nat.land (raw >>> 8) 0x7f * 2 ^ 8 +
        Nat.land (raw >>> 15) 0xf * 2 ^ 15 + (raw >>> 19) * 2 ^ 19 = raw := by
  set raw := t + p * 2 ^ 8 + h * 2 ^ 15 + f * 2 ^ 19 with hraw
  have hlt : raw < 2 ^ 32 := by omega
  have h1 := getTemperature_eval raw hlt
  have h2 := getPressure_eval raw hlt
  have h3 := getHumidity_eval raw hlt
  have h4 := getFluidLevel_eval raw hlt
  refine ⟨?_, hlt, ?_⟩
  · simp only [decode, DecodedReading.mk.injEq, h1, h2, h3, h4,
      land_mask_255, land_mask_127, land_mask_15, land_mask_8191,
      shiftRight_8, shiftRight_15, shiftRight_19]
    refine ⟨?_, ?_, ?_, ?_⟩
    · have : raw % 256 = t := by omega
      rw [this]
    · omega
    · omega
    · omega
  · intro raw' hraw'
    simp only [land_mask_255, land_mask_127, land_mask_15,
      shiftRight_8, shiftRight_15, shiftRight_19]
    omega

/-- C5 witness at `t = 30, p = 5, h = 7, f = 8001`. -/
theorem C5_roundtrip_witness :
    ((30 : Nat) < 2 ^ 8 ∧ (5 : Nat) < 2 ^ 7 ∧ (7 : Nat) < 2 ^ 4 ∧
      (8001 : Nat) < 2 ^ 13) ∧
    (decode (30 + 5 * 2 ^ 8 + 7 * 2 ^ 15 + 8001 * 2 ^ 19) =
      { temperature := (30 : Int) - 20
        pressure := 5 + 1010
        humidity := 7
        fluidLevel := 8001 } ∧
     30 + 5 * 2 ^ 8 + 7 * 2 ^ 15 + 8001 * 2 ^ 19 < 2 ^ 32 ∧
     ∀ raw < 2 ^ 32,
       Nat.land raw 0xff + Nat.land (raw >>> 8) 0x7f * 2 ^ 8 +
         Nat.land (raw >>> 15) 0xf * 2 ^ 15 + (raw >>> 19) * 2 ^ 19 = raw) :=
  ⟨⟨by norm_num, by norm_num, by norm_num, by norm_num⟩,
    C5_roundtrip 30 5 7 8001 (by norm_num) (by norm_num) (by norm_num)
      (by norm_num)⟩

/-! ## C2, C3, C4: the alarm evaluator -/

set_option maxRecDepth 10000 in
/-- The humidity flag is nonzero exactly when more than 2 of the low 4
bits are set (checked exhaustively over the `uint8_t` domain). -/
theorem countHB_nonzero_iff : ∀ h < 256, (countHumidityBits h HUMIDITY_BITS ≠ 0 ↔
    2 < ((List.range 4).filter fun i => Nat.testBit h i).length) := by decide

/-- C2: the per-field alarm thresholds: temperature low iff `≤ 4`, high
iff `> 100`; pressure low iff `< 1013`, high iff `> 1135`; tank empty
iff `fluidLevel ≤ 0`, equivalently `= 0` (unsigned); overflow risk iff
`> 8000`. -/
theorem C2_alarm_thresholds (t : Int) (p h f : Nat) :
    (AlarmKind.tempLow ∈ alarm t p h f ↔ t ≤ 4) ∧
    (AlarmKind.tempHigh ∈ alarm t p h f ↔ 100 < t) ∧
    (AlarmKind.pressureLow ∈ alarm t p h f ↔ p < 1013) ∧
    (AlarmKind.pressureHigh ∈ alarm t p h f ↔ 1135 < p) ∧
    (AlarmKind.tankEmpty ∈ alarm t p h f ↔ f ≤ 0) ∧
    (AlarmKind.tankEmpty ∈ alarm t p h f ↔ f = 0) ∧
    (AlarmKind.tankOverflow ∈ alarm t p h f ↔ 8000 < f) := by
  simp only [alarm, List.mem_append, List.mem_singleton, List.not_mem_nil]
  split_ifs <;> simp_all <;> omega

theorem mem_humidity_iff (t : Int) (p f : Nat) : ∀ h' : Nat,
    (AlarmKind.humidityOutOfRange ∈ alarm t p h' f ↔
      countHumidityBits h' HUMIDITY_BITS ≠ 0) := by
  intro h'
  simp only [alarm, List.mem_append, List.mem_singleton, List.not_mem_nil]
  split_ifs <;> simp_all

/-- C3: the humidity alarm is raised iff more than 2 of the low 4 bits
of the humidity value are set; the nibble `0b0111` triggers it and
`0b0011` does not. -/
theorem C3_humidity_alarm (t : Int) (p f h : Nat) (hh : h < 256) :
    (AlarmKind.humidityOutOfRange ∈ alarm t p h f ↔
      2 < ((List.range 4).filter fun i => Nat.testBit h i).length) ∧
    AlarmKind.humidityOutOfRange ∈ alarm t p 0b0111 f ∧
    AlarmKind.humidityOutOfRange ∉ alarm t p 0b0011 f := by
  refine ⟨(mem_humidity_iff t p f h).trans (countHB_nonzero_iff h hh), ?_, ?_⟩
  · exact (mem_humidity_iff t p f 7).mpr (by decide)
  · intro hmem
    exact absurd ((mem_humidity_iff t p f 3).mp hmem) (by decide)

/-- C3 witness at `t = 0, p = 0, f = 0, h = 5`. -/
theorem C3_humidity_alarm_witness :
    (5 : Nat) < 256 ∧
    ((AlarmKind.humidityOutOfRange ∈ alarm 0 0 5 0 ↔
       2 < ((List.range 4).filter fun i => Nat.testBit 5 i).length) ∧
     AlarmKind.humidityOutOfRange ∈ alarm 0 0 0b0111 0 ∧
     AlarmKind.humidityOutOfRange ∉ alarm 0 0 0b0011 0) :=
  ⟨by norm_num, C3_humidity_alarm 0 0 0 5 (by norm_num)⟩

/-- C4: the evaluator's report is exactly the union of the per-field
alarms in the stable field order temperature, pressure, humidity,
fluidLevel (no alarm suppresses another), and at `raw = 0` the three
alarms temperature-low, pressure-low and tank-empty co-occur. -/
theorem C4_union_and_order (t : Int) (p h f : Nat) (hh : h < 256) :
    alarm t p h f = specAlarms t p h f ∧
    alarm (decode 0).temperature (decode 0).pressure (decode 0).humidity
        (decode 0).fluidLevel =
      [AlarmKind.tempLow, AlarmKind.pressureLow, AlarmKind.tankEmpty] := by
  constructor
  · have key := countHB_nonzero_iff h hh
    have e1 : (if t ≤ 4 then [AlarmKind.tempLow]
               else if t > 100 then [AlarmKind.tempHigh] else [])
        = (if t ≤ 4 then [AlarmKind.tempLow] else [])
          ++ (if 100 < t then [AlarmKind.tempHigh] else []) := by
      split_ifs <;> simp_all <;> omega
    have e2 : (if p < 1013 then [AlarmKind.pressureLow]
               else if p > 1135 then [AlarmKind.pressureHigh] else [])
        = (if p < 1013 then [AlarmKind.pressureLow] else [])
          ++ (if 1135 < p then [AlarmKind.pressureHigh] else []) := by
      split_ifs <;> simp_all <;> omega
    have e4 : (if f ≤ 0 then [AlarmKind.tankEmpty]
               else if f > 8000 then [AlarmKind.tankOverflow] else [])
        = (if f ≤ 0 then [AlarmKind.tankEmpty] else [])
          ++ (if 8000 < f then [AlarmKind.tankOverflow] else []) := by
      split_ifs <;> simp_all <;> omega
    have e3 : (if countHumidityBits h HUMIDITY_BITS ≠ 0 then
                 [AlarmKind.humidityOutOfRange] else [])
        = (if 2 < ((List.range 4).filter fun i => Nat.testBit h i).length then
             [AlarmKind.humidityOutOfRange] else []) := by
      by_cases hc : countHumidityBits h HUMIDITY_BITS ≠ 0
      · rw [if_pos hc, if_pos (key.mp hc)]
      · rw [if_neg hc, if_neg fun hp => hc (key.mpr hp)]
    show (if t ≤ 4 then [AlarmKind.tempLow]
          else if t > 100 then [AlarmKind.tempHigh] else [])
        ++ _ ++ _ ++ _ = _
    rw [e1, e2, e3, e4, specAlarms]
    simp [List.append_assoc]
  · decide

/-- C4 witness at `t = -20, p = 1010, h = 0, f = 0` (the fields of
`decode 0`). -/
theorem C4_union_and_order_witness :
    (0 : Nat) < 256 ∧
    (alarm (-20) 1010 0 0 = specAlarms (-20) 1010 0 0 ∧
     alarm (decode 0).temperature (decode 0).pressure (decode 0).humidity
         (decode 0).fluidLevel =
       [AlarmKind.tempLow, AlarmKind.pressureLow, AlarmKind.tankEmpty]) :=
  ⟨by norm_num, C4_union_and_order (-20) 1010 0 0 (by norm_num)⟩

/-! ## C8: determinism of decode and evaluate -/

/-- C8: `decode` and `alarm` are pure functions — evaluating either
twice on the same input yields identical results. -/
theorem C8_purity :
    (∀ raw : Nat, decode raw = decode raw) ∧
    ∀ (t : Int) (p h f : Nat), alarm t p h f = alarm t p h f :=
  ⟨fun _ => rfl, fun _ _ _ _ => rfl⟩

/-! ## The input pipeline: getBuffer, enterData -/

theorem flushBuffer_append (l rest : List Char) (h : '\n' ∉ l) :
    flushBuffer (l ++ '\n' :: rest) = rest := by
  induction l with
  | nil => simp [flushBuffer]
  | cons c cs ih =>
    have hc : ¬ (c = '\n') := fun hc => h (by simp [hc])
    have hcs : '\n' ∉ cs := fun hm => h (List.mem_cons_of_mem _ hm)
    simp [flushBuffer, hc, ih hcs]

theorem set_take_succ (b : List Char) (i : Nat) (c : Char) (hi : i < b.length) :
    (b.set i c).take (i + 1) = b.take i ++ [c] := by
  rw [List.set_eq_take_append_cons_drop, if_pos hi]
  rw [List.take_append_eq_append_take]
  simp [List.length_take, Nat.min_eq_left (Nat.le_of_lt hi)]

theorem getBufferLoop_spec (line : List Char) : ∀ (rest b : List Char) (i : Nat),
    '\n' ∉ line → b.length = 9 → i < 9 →
    getBufferLoop (line ++ '\n' :: rest) i b 9 =
      (if line.length ≤ 8 - i then
         b.take i ++ line ++ nulChar :: b.drop (i + line.length + 1)
       else b.take i ++ line.take (8 - i) ++ [nulChar], rest) := by
  induction line with
  | nil =>
    intro rest b i hnl hb hi
    rw [List.nil_append, getBufferLoop, if_pos hi]
    simp only [List.nil_append, List.length_nil, Nat.add_zero]
    rw [if_pos trivial, if_pos (by omega)]
    rw [List.set_eq_take_append_cons_drop, if_pos (by omega)]
    simp
  | cons c cs ih =>
    intro rest b i hnl hb hi
    have hc : ¬ (c = '\n') := fun hcc => hnl (by simp [hcc])
    have hcs : '\n' ∉ cs := fun hm => hnl (List.mem_cons_of_mem _ hm)
    rw [List.cons_append, getBufferLoop, if_pos hi]
    rw [if_neg hc]
    by_cases h8 : (9 : Nat) - 1 ≤ i
    · have hi8 : i = 8 := by omega
      subst hi8
      rw [if_pos h8, flushBuffer_append cs rest hcs]
      rw [if_neg (by simp)]
      rw [List.set_eq_take_append_cons_drop, if_pos (by omega)]
      rw [List.drop_eq_nil_of_le (by omega)]
      simp
    · rw [if_neg h8]
      rw [ih rest (b.set i c) (i + 1) hcs (by simp [hb]) (by omega)]
      have hib : i < b.length := by omega
      have hA := set_take_succ b i c hib
      by_cases hcl : cs.length ≤ 8 - (i + 1)
      · rw [if_pos hcl, if_pos (by simp only [List.length_cons]; omega)]
        rw [List.drop_set, if_pos (by omega)]
        rw [hA]
        simp only [List.length_cons]
        have : i + 1 + cs.length + 1 = i + (cs.length + 1) + 1 := by omega
        rw [this]
        simp
      · rw [if_neg hcl, if_neg (by simp only [List.length_cons]; omega)]
        rw [hA]
        have : (8 : Nat) - i = (8 - (i + 1)) + 1 := by omega
        rw [this, List.take_succ_cons]
        simp

theorem bufContent_cons (c : Char) (l : List Char) :
    bufContent (c :: l) = if c = nulChar then [] else c :: bufContent l := by
  by_cases hc : c = nulChar <;> simp [bufContent, List.takeWhile_cons, hc]

theorem bufContent_append (line junk : List Char) (h : nulChar ∉ line) :
    bufContent (line ++ nulChar :: junk) = line := by
  induction line with
  | nil => simp [bufContent, List.takeWhile]
  | cons c cs ih =>
    have hc : ¬ (c = nulChar) := fun hc => h (by simp [hc])
    have hcs : nulChar ∉ cs := fun hm => h (List.mem_cons_of_mem _ hm)
    rw [List.cons_append, bufContent_cons, if_neg hc, ih hcs]

theorem getBuffer_spec (line rest b : List Char) (hnl : '\n' ∉ line)
    (hb : b.length = 9) :
    getBuffer b HEX_INPUT_BUFFER_SIZE (line ++ '\n' :: rest) =
      (if line.length ≤ 8 then line ++ nulChar :: b.drop (line.length + 1)
       else line.take 8 ++ [nulChar], rest) := by
  rw [getBuffer, show HEX_INPUT_BUFFER_SIZE = 9 from rfl]
  rw [getBufferLoop_spec line rest b 0 hnl hb (by norm_num)]
  simp

theorem dataToUpperCase_small (s : List Char) (hs : s.length ≤ 8) :
    dataToUpperCase s MAX_HEX_DIGITS = s.map cToUpper := by
  rw [dataToUpperCase, show MAX_HEX_DIGITS = 8 from rfl]
  rw [List.take_of_length_le hs, List.drop_eq_nil_of_le hs]
  simp

theorem enterDataStep_eq (buf line rest : List Char) (hbuf : buf.length = 9)
    (hnl : '\n' ∉ line) (hnul : nulChar ∉ line) (hlen : line.length ≤ 8) :
    enterDataStep buf (line ++ '\n' :: rest) =
      (if line = [] then Outcome.retryEmpty
       else if checkIfEnd (line.map cToUpper) then Outcome.exitProgram
       else if ¬ checkEnteredData (line.map cToUpper) MAX_HEX_DIGITS then
         Outcome.retryInvalid
       else Outcome.accepted (line.map cToUpper), rest) := by
  rw [enterDataStep, getBuffer_spec line rest buf hnl hbuf, if_pos hlen]
  simp only
  rw [bufContent_append line _ hnul]
  by_cases h0 : line = []
  · subst h0
    simp
  · have hm0 : ¬ (List.map cToUpper line = []) := by simpa using h0
    simp [h0, hm0, dataToUpperCase_small line hlen]
    split_ifs <;> rfl

theorem checkEnteredData_iff (s : List Char) (hs : s.length ≤ 8) :
    (checkEnteredData s MAX_HEX_DIGITS = true ↔
      ∀ c ∈ s, ( '0' ≤ c ∧ c ≤ '9') ∨ ( 'A' ≤ c ∧ c ≤ 'F')) := by
  rw [checkEnteredData, show MAX_HEX_DIGITS = 8 from rfl, List.take_of_length_le hs]
  simp [List.all_eq_true, cIsDigit]

/-! ## C9: line reading and truncation -/

/-- C9: reading a line into the 9-byte buffer consumes the line and its
newline exactly; a line of at most 8 characters is stored unchanged
with the NUL terminator right after it, and a longer line is truncated
to its first 8 characters with the NUL terminator at index 8, the rest
of the line (newline included) being discarded from the stream. -/
theorem C9_line_truncation (line rest buf : List Char) (hnl : '\n' ∉ line)
    (hbuf : buf.length = 9) :
    (getBuffer buf HEX_INPUT_BUFFER_SIZE (line ++ '\n' :: rest)).2 = rest ∧
    (line.length ≤ 8 →
      (getBuffer buf HEX_INPUT_BUFFER_SIZE (line ++ '\n' :: rest)).1 =
        line ++ nulChar :: buf.drop (line.length + 1)) ∧
    (8 < line.length →
      (getBuffer buf HEX_INPUT_BUFFER_SIZE (line ++ '\n' :: rest)).1 =
        line.take 8 ++ [nulChar]) := by
  rw [getBuffer_spec line rest buf hnl hbuf]
  refine ⟨rfl, fun h => ?_, fun h => ?_⟩
  · simp [if_pos h]
  · simp only [if_neg (by omega : ¬ line.length ≤ 8)]

/-- C9 witness at the line `"abc"`, a zeroed buffer, and stream rest
`"x"`. -/
theorem C9_line_truncation_witness :
    '\n' ∉ [ 'a', 'b', 'c'] ∧ (List.replicate 9 nulChar).length = 9 ∧
    ((getBuffer (List.replicate 9 nulChar) HEX_INPUT_BUFFER_SIZE
        ([ 'a', 'b', 'c'] ++ '\n' :: [ 'x'])).2 = [ 'x'] ∧
     (([ 'a', 'b', 'c'] : List Char).length ≤ 8 →
       (getBuffer (List.replicate 9 nulChar) HEX_INPUT_BUFFER_SIZE
          ([ 'a', 'b', 'c'] ++ '\n' :: [ 'x'])).1 =
         [ 'a', 'b', 'c'] ++ nulChar ::
           (List.replicate 9 nulChar).drop
             (([ 'a', 'b', 'c'] : List Char).length + 1)) ∧
     (8 < ([ 'a', 'b', 'c'] : List Char).length →
       (getBuffer (List.replicate 9 nulChar) HEX_INPUT_BUFFER_SIZE
          ([ 'a', 'b', 'c'] ++ '\n' :: [ 'x'])).1 =
         ([ 'a', 'b', 'c'] : List Char).take 8 ++ [nulChar])) :=
  ⟨by decide, by decide,
    C9_line_truncation [ 'a', 'b', 'c'] [ 'x'] (List.replicate 9 nulChar)
      (by decide) (by decide)⟩

/-! ## C6: the END sentinel -/

/-- C6 counterexample: the lowercase line `"end"` — which is not the
literal token `"END"` — also makes the program request shutdown,
because `enterData` uppercases the input before the `strcmp` against
`"END"`.  So the claimed case-sensitive exact match fails. -/
theorem C6_counterexample :
    (enterDataStep (List.replicate 9 nulChar)
        ([ 'e', 'n', 'd'] ++ '\n' :: [])).1 = Outcome.exitProgram ∧
    [ 'e', 'n', 'd'] ≠ [ 'E', 'N', 'D'] := by
  constructor
  · rfl
  · decide

/-- C6 (amended): for every accepted input line (at most 8 characters,
no NUL), the program requests shutdown iff the line equals `"END"`
after uppercase normalization, i.e. the comparison is case-insensitive
on the entered line; no other input terminates the program. -/
theorem C6_end_token (buf line rest : List Char) (hbuf : buf.length = 9)
    (hnl : '\n' ∉ line) (hnul : nulChar ∉ line) (hlen : line.length ≤ 8) :
    ((enterDataStep buf (line ++ '\n' :: rest)).1 = Outcome.exitProgram ↔
      List.map cToUpper line = [ 'E', 'N', 'D']) := by
  rw [enterDataStep_eq buf line rest hbuf hnl hnul hlen]
  by_cases h0 : line = []
  · subst h0
    simp
  · simp only [if_neg h0]
    by_cases hend : checkIfEnd (List.map cToUpper line) = true
    · have hEND : List.map cToUpper line = [ 'E', 'N', 'D'] := by
        simpa [checkIfEnd] using hend
      rw [if_pos hend]
      simp [hEND]
    · have hNE : List.map cToUpper line ≠ [ 'E', 'N', 'D'] := by
        simpa [checkIfEnd] using hend
      simp only [if_neg hend]
      split_ifs <;> simp [hNE]

/-- C6 witness at the line `"end"`. -/
theorem C6_end_token_witness :
    ((List.replicate 9 nulChar).length = 9 ∧ '\n' ∉ [ 'e', 'n', 'd'] ∧
     nulChar ∉ [ 'e', 'n', 'd'] ∧ ([ 'e', 'n', 'd'] : List Char).length ≤ 8) ∧
    ((enterDataStep (List.replicate 9 nulChar)
        ([ 'e', 'n', 'd'] ++ '\n' :: [ 'x'])).1 = Outcome.exitProgram ↔
      List.map cToUpper [ 'e', 'n', 'd'] = [ 'E', 'N', 'D']) :=
  ⟨⟨by decide, by decide, by decide, by decide⟩,
    C6_end_token (List.replicate 9 nulChar) [ 'e', 'n', 'd'] [ 'x']
      (by decide) (by decide) (by decide) (by decide)⟩

/-! ## C7: input validation -/

/-- C7: a line (of at most 8 characters, no NUL) is accepted exactly
when it is nonempty and, after uppercase normalization, every character
is a hexadecimal digit `0-9` or `A-F`; an empty line is re-prompted
(`retryEmpty`); a nonempty line with an invalid character that is not
the `END` sentinel is re-prompted (`retryInvalid`); and the core only
ever receives the validated, normalized hex string. -/
theorem C7_validation (buf line rest : List Char) (hbuf : buf.length = 9)
    (hnl : '\n' ∉ line) (hnul : nulChar ∉ line) (hlen : line.length ≤ 8) :
    ((∃ d, (enterDataStep buf (line ++ '\n' :: rest)).1 = Outcome.accepted d) ↔
      (line ≠ [] ∧ ∀ c ∈ List.map cToUpper line,
        ( '0' ≤ c ∧ c ≤ '9') ∨ ( 'A' ≤ c ∧ c ≤ 'F'))) ∧
    (line = [] →
      (enterDataStep buf (line ++ '\n' :: rest)).1 = Outcome.retryEmpty) ∧
    (line ≠ [] →
      ¬ (∀ c ∈ List.map cToUpper line,
          ( '0' ≤ c ∧ c ≤ '9') ∨ ( 'A' ≤ c ∧ c ≤ 'F')) →
      List.map cToUpper line ≠ [ 'E', 'N', 'D'] →
      (enterDataStep buf (line ++ '\n' :: rest)).1 = Outcome.retryInvalid) ∧
    (∀ d, (enterDataStep buf (line ++ '\n' :: rest)).1 = Outcome.accepted d →
      d = List.map cToUpper line ∧
      checkEnteredData d MAX_HEX_DIGITS = true) := by
  rw [enterDataStep_eq buf line rest hbuf hnl hnul hlen]
  have hmlen : (List.map cToUpper line).length ≤ 8 := by simpa using hlen
  have hiff := checkEnteredData_iff (List.map cToUpper line) hmlen
  by_cases h0 : line = []
  · subst h0
    simp
  · simp only [if_neg h0]
    by_cases hend : checkIfEnd (List.map cToUpper line) = true
    · have hEND : List.map cToUpper line = [ 'E', 'N', 'D'] := by
        simpa [checkIfEnd] using hend
      rw [if_pos hend]
      refine ⟨?_, ?_, ?_, ?_⟩
      · constructor
        · rintro ⟨d, hd⟩
          exact absurd hd (by simp)
        · rintro ⟨-, hall⟩
          have hN := hall 'N' (by rw [hEND]; simp)
          exact absurd hN (by decide)
      · intro h
        exact absurd h h0
      · intro _ _ hne
        exact absurd hEND hne
      · intro d hd
        exact absurd hd (by simp)
    · simp only [if_neg hend]
      by_cases hval : checkEnteredData (List.map cToUpper line) MAX_HEX_DIGITS = true
      · have hvf : ¬ (checkEnteredData (List.map cToUpper line) MAX_HEX_DIGITS
            = false) := by
          simp [hval]
        refine ⟨?_, ?_, ?_, ?_⟩
        · constructor
          · intro _
            exact ⟨h0, hiff.mp hval⟩
          · intro _
            refine ⟨List.map cToUpper line, ?_⟩
            simp [hvf]
        · intro h
          exact absurd h h0
        · intro _ hbad _
          exact absurd (hiff.mp hval) hbad
        · intro d hd
          rw [if_neg (not_not_intro hval)] at hd
          obtain rfl : List.map cToUpper line = d := by injection hd
          exact ⟨rfl, hval⟩
      · have hvf : checkEnteredData (List.map cToUpper line) MAX_HEX_DIGITS
            = false := by
          simpa using hval
        refine ⟨?_, ?_, ?_, ?_⟩
        · constructor
          · rintro ⟨d, hd⟩
            simp [hvf] at hd
          · rintro ⟨-, hall⟩
            exact absurd (hiff.mpr hall) hval
        · intro h
          exact absurd h h0
        · intro _ _ _
          simp [hvf]
        · intro d hd
          simp [hvf] at hd

/-- C7 witness at the line `"1a"`. -/
theorem C7_validation_witness :
    ((List.replicate 9 nulChar).length = 9 ∧ '\n' ∉ [ '1', 'a'] ∧
     nulChar ∉ [ '1', 'a'] ∧ ([ '1', 'a'] : List Char).length ≤ 8) ∧
    (((∃ d, (enterDataStep (List.replicate 9 nulChar)
          ([ '1', 'a'] ++ '\n' :: [])).1 = Outcome.accepted d) ↔
       ([ '1', 'a'] ≠ ([] : List Char) ∧
         ∀ c ∈ List.map cToUpper [ '1', 'a'],
           ( '0' ≤ c ∧ c ≤ '9') ∨ ( 'A' ≤ c ∧ c ≤ 'F'))) ∧
     ([ '1', 'a'] = ([] : List Char) →
       (enterDataStep (List.replicate 9 nulChar)
          ([ '1', 'a'] ++ '\n' :: [])).1 = Outcome.retryEmpty) ∧
     ([ '1', 'a'] ≠ ([] : List Char) →
       ¬ (∀ c ∈ List.map cToUpper [ '1', 'a'],
           ( '0' ≤ c ∧ c ≤ '9') ∨ ( 'A' ≤ c ∧ c ≤ 'F')) →
       List.map cToUpper [ '1', 'a'] ≠ [ 'E', 'N', 'D'] →
       (enterDataStep (List.replicate 9 nulChar)
          ([ '1', 'a'] ++ '\n' :: [])).1 = Outcome.retryInvalid) ∧
     (∀ d, (enterDataStep (List.replicate 9 nulChar)
          ([ '1', 'a'] ++ '\n' :: [])).1 = Outcome.accepted d →
       d = List.map cToUpper [ '1', 'a'] ∧
       checkEnteredData d MAX_HEX_DIGITS = true)) :=
  ⟨⟨by decide, by decide, by decide, by decide⟩,
    C7_validation (List.replicate 9 nulChar) [ '1', 'a'] []
      (by decide) (by decide) (by decide) (by decide)⟩

/-! ## C10: the humidity window invariant -/

theorem counter_popcount : ∀ h ≤ 15, countHumidityBitsCounter h HUMIDITY_BITS =
    ((List.range 4).filter fun i => Nat.testBit h i).length := by decide

/-- C10: `getHumidity` with mask `0xF` and shift 15 always returns a
value at most 15; every set bit of such a value lies below bit 4, the
window `countHumidityBits` examines; and the counter it computes equals
the number of set bits over any window of at least 4 bits — in
particular the true popcount of the humidity argument. -/
theorem C10_humidity_window (raw : Nat) :
    getHumidity raw HUMIDITY_BITS_MASK HUMIDITY_BITS_SHIFT ≤ 15 ∧
    ∀ h ≤ 15, (∀ i, Nat.testBit h i = true → i < HUMIDITY_BITS) ∧
      ∀ n, HUMIDITY_BITS ≤ n → countHumidityBitsCounter h HUMIDITY_BITS =
        ((List.range n).filter fun i => Nat.testBit h i).length := by
  constructor
  · simp only [getHumidity, HUMIDITY_BITS_MASK, HUMIDITY_BITS_SHIFT]
    norm_num [land_mask_15]
    omega
  · intro h hh
    have hbit : ∀ i, 4 ≤ i → Nat.testBit h i = false := by
      intro i hi
      have h16 : h < 2 ^ 4 := by omega
      have hle : (2 : Nat) ^ 4 ≤ 2 ^ i := Nat.pow_le_pow_right (by norm_num) hi
      exact Nat.testBit_lt_two_pow (lt_of_lt_of_le h16 hle)
    constructor
    · intro i hbit'
      by_contra hcon
      rw [hbit i (by simpa [HUMIDITY_BITS] using hcon)] at hbit'
      exact Bool.false_ne_true hbit'
    · intro n hn
      rw [show HUMIDITY_BITS = 4 from rfl] at *
      induction n with
      | zero => omega
      | succ m ih =>
        rcases Nat.lt_or_ge m 4 with hm | hm
        · have : m + 1 = 4 := by omega
          rw [this]
          exact counter_popcount h hh
        · rw [List.range_succ, List.filter_append]
          simp [hbit m hm, ih (by omega)]

/-- C10 witness at `raw = 123` and humidity value `h = 7`, window
`n = 6`. -/
theorem C10_humidity_window_witness :
    getHumidity 123 HUMIDITY_BITS_MASK HUMIDITY_BITS_SHIFT ≤ 15 ∧
    ((7 : Nat) ≤ 15 ∧
     ((∀ i, Nat.testBit 7 i = true → i < HUMIDITY_BITS) ∧
      HUMIDITY_BITS ≤ 6 ∧
      countHumidityBitsCounter 7 HUMIDITY_BITS =
        ((List.range 6).filter fun i => Nat.testBit 7 i).length)) :=
  ⟨(C10_humidity_window 123).1, by norm_num,
    ((C10_humidity_window 123).2 7 (by norm_num)).1,
    by decide,
    ((C10_humidity_window 123).2 7 (by norm_num)).2 6 (by decide)⟩

end DecHexBin
